import Mathlib

/-!
Verification of the provenance-ledger core of the AI-Content-Authenticity
system: a shallow embedding of `blockchain.py` (the `Block` and `Blockchain`
classes and the signing utilities) together with the aggregation layers of
`detection_engine.py` and `tamper_detector.py`.

Modelling conventions:

* The two cryptographic library calls inside `Block.calculate_hash` —
  `json.dumps(..., sort_keys=True, default=str)` from the standard `json`
  module and `hashlib.sha256(...).hexdigest()` — are external primitives, not
  repository code.  They are embedding parameters `S : BlockData → String`
  (the canonical serialization of the block dictionary) and
  `H : String → String` (the hex digest).  No property of either is ever
  assumed globally; where a theorem needs that two specific serialized blocks
  do not collide under `H ∘ S`, that fact appears as an explicit hypothesis,
  discharged concretely in the corresponding witness.
* Likewise `public_key.verify` from the `cryptography` package (wrapped by
  `verify_signature` in blockchain.py) is the external Identity-verify
  capability, an embedding parameter `V`.
* Block timestamps are produced by `time.time()` and are only ever carried
  and serialized, never computed with; they are modelled as opaque `String`
  tokens.
* The `while` loop of `Blockchain.proof_of_work` has no bound in the source;
  it is embedded with explicit fuel, `none` meaning the loop has not
  terminated within the given fuel (so `∀ fuel, ... = none` is divergence).
* File persistence is modelled functionally: `save_blockchain` returns the
  document it writes, `load_blockchain` consumes an abstract `FileState`
  (missing file / document whose parse or field access raises / fully parsed
  well-typed document).
-/

namespace ContentLedger

/-- The dictionary produced by `Block.to_dict` in blockchain.py, which is also
the shape of one entry of the persisted ledger document.  `nonce` is optional
because `load_blockchain` reads it with `block_data.get('nonce', 0)`, so a
persisted entry may lack it; `to_dict` always writes it. -/
structure BlockData where
  index : Nat
  timestamp : String
  content_hash : String
  creator_public_key : String
  signature : String
  previous_hash : String
  nonce : Option Nat
deriving DecidableEq, Repr

/-- A block of the chain (`class Block` in blockchain.py).  The first seven
fields are the constructor arguments of `Block.__init__`; `hash` is the
`.hash` attribute assigned later (by `proof_of_work`, `create_genesis_block`
or `load_blockchain`).  In the source a freshly constructed block has no
`.hash` attribute yet; here it carries `""` until assigned, and no embedded
code path reads it before assignment. -/
structure Block where
  index : Nat
  timestamp : String
  content_hash : String
  creator_public_key : String
  signature : String
  previous_hash : String
  nonce : Nat
  hash : String
deriving DecidableEq, Repr

/-- `Block.to_dict`: the dictionary representation (excludes the `.hash`
attribute). -/
def Block.to_dict (b : Block) : BlockData :=
  { index := b.index
    timestamp := b.timestamp
    content_hash := b.content_hash
    creator_public_key := b.creator_public_key
    signature := b.signature
    previous_hash := b.previous_hash
    nonce := some b.nonce }

/-- `Block.calculate_hash`: the hex digest of the canonical serialization of
`to_dict`.  `S` stands for `json.dumps(..., sort_keys=True, default=str)` and
`H` for `hashlib.sha256(...).hexdigest()`, both external library primitives. -/
def Block.calculate_hash (S : BlockData → String) (H : String → String) (b : Block) : String :=
  H (S b.to_dict)

/-- `'0' * difficulty`: the proof-of-work target prefix. -/
def zeroString (d : Nat) : String :=
  String.mk (List.replicate d '0')

/-- Python's `str.startswith`: a character-level prefix test.  (Defined
structurally over the character lists so that concrete instances evaluate;
semantically identical to `String.startsWith`.) -/
def strStartsWith (s p : String) : Bool :=
  p.data.isPrefixOf s.data

/-- `verify_signature` from blockchain.py: checks a hex signature over a
content hash against a public key.  Its body is the external RSA
`public_key.verify` of the `cryptography` package (returning `False` exactly
on `InvalidSignature`), the Identity-verify capability `V`. -/
def verify_signature (V : String → String → String → Bool)
    (content_hash signature_hex public_key : String) : Bool :=
  V content_hash signature_hex public_key

/-- Placeholder block used only as the default of `List.getLastD`; it is never
read on any path where the chain is empty, because `add_block` returns early
on an empty chain. -/
def defaultBlock : Block :=
  { index := 0, timestamp := "", content_hash := "", creator_public_key := ""
    signature := "", previous_hash := "", nonce := 0, hash := "" }

/-- The fixed all-zero content hash of the genesis block (64 hex zeros). -/
def genesisContentHash : String :=
  "0000000000000000000000000000000000000000000000000000000000000000"

/-- `Blockchain.create_genesis_block`: the genesis block for a creation
timestamp `ts`, with its `.hash` attribute assigned to its recomputed hash. -/
def genesisBlock (S : BlockData → String) (H : String → String) (ts : String) : Block :=
  let g : Block :=
    { index := 0, timestamp := ts, content_hash := genesisContentHash
      creator_public_key := "GENESIS", signature := "GENESIS"
      previous_hash := "0", nonce := 0, hash := "" }
  { g with hash := g.calculate_hash S H }

/-- The nonce search of `Blockchain.proof_of_work`: starting from nonce `n`,
return the first nonce whose block hash starts with `difficulty` zeros, or
`none` if the loop body has run `fuel` times without finding one (the source
loop is unbounded, so `none` for every fuel is divergence). -/
def findNonce (S : BlockData → String) (H : String → String) (d : Nat) (b : Block) :
    Nat → Nat → Option Nat
  | 0, _ => none
  | fuel + 1, n =>
    if strStartsWith (({ b with nonce := n } : Block).calculate_hash S H) (zeroString d) then
      some n
    else
      findNonce S H d b fuel (n + 1)

/-- `Blockchain.proof_of_work`: reset the nonce to 0, search upward for a hash
with `d` leading zeros, and assign the found hash to the block's `.hash`
attribute. -/
def proof_of_work (S : BlockData → String) (H : String → String) (d : Nat) (b : Block)
    (fuel : Nat) : Option Block :=
  match findNonce S H d b fuel 0 with
  | none => none
  | some n =>
    let b' : Block := { b with nonce := n }
    some { b' with hash := b'.calculate_hash S H }

/-- `Blockchain.validate_block`: index continuity, previous-hash linkage, and
proof-of-work; the signature is accepted without verification (source comment:
"we'll just accept the signature as valid"). -/
def validate_block (S : BlockData → String) (H : String → String) (d : Nat)
    (new_block previous_block : Block) : Bool :=
  if previous_block.index + 1 ≠ new_block.index then false
  else if previous_block.calculate_hash S H ≠ new_block.previous_hash then false
  else if ¬ strStartsWith (new_block.calculate_hash S H) (zeroString d) then false
  else true

/-- The candidate block built at the top of `Blockchain.add_block`
(nonce defaults to 0; `.hash` not yet assigned). -/
def candidateBlock (S : BlockData → String) (H : String → String) (chain : List Block)
    (content_hash creator_public_key signature ts : String) : Block :=
  let previous_block := chain.getLastD defaultBlock
  { index := previous_block.index + 1
    timestamp := ts
    content_hash := content_hash
    creator_public_key := creator_public_key
    signature := signature
    previous_hash := previous_block.calculate_hash S H
    nonce := 0
    hash := "" }

/-- The ledger document written by `Blockchain.save_blockchain`: the block
dictionaries in order, the chain length, and the precomputed validity flag. -/
structure SavedDoc where
  chain : List BlockData
  length : Nat
  valid : Bool
deriving DecidableEq, Repr

/-- A `chainOk`/`is_valid_chain` helper: "chainOk" means a chain is accepted. -/
def chainOk (S : BlockData → String) (H : String → String) (d : Nat) :
    Block → List Block → Bool
  | _, [] => true
  | previous_block, current_block :: rest =>
    (validate_block S H d current_block previous_block &&
        (current_block.calculate_hash S H == current_block.hash)) &&
      chainOk S H d current_block rest

/-- `Blockchain.is_valid_chain`: for each index `i ≥ 1`, the pair
`(chain[i], chain[i-1])` must pass `validate_block` and the stored `.hash`
must equal the recomputed hash; chains of length 0 or 1 are valid.
`chainOk` is the loop, threading the previous block. -/
def is_valid_chain (S : BlockData → String) (H : String → String) (d : Nat) :
    List Block → Bool
  | [] => true
  | b :: rest => chainOk S H d b rest

/-- `Blockchain.save_blockchain`: the document written to the ledger file. -/
def save_blockchain (S : BlockData → String) (H : String → String) (d : Nat)
    (chain : List Block) : SavedDoc :=
  { chain := chain.map Block.to_dict
    length := chain.length
    valid := is_valid_chain S H d chain }

/-- `Blockchain.add_block`: returns `none` when the proof-of-work loop has not
terminated within `fuel` iterations (the source loop is unbounded); otherwise
`some (returned bool, resulting chain, document saved if any)`. -/
def add_block (S : BlockData → String) (H : String → String) (d : Nat)
    (chain : List Block) (content_hash creator_public_key signature ts : String)
    (fuel : Nat) : Option (Bool × List Block × Option SavedDoc) :=
  if chain.isEmpty then some (false, chain, none)
  else
    let previous_block := chain.getLastD defaultBlock
    let new_block := candidateBlock S H chain content_hash creator_public_key signature ts
    match proof_of_work S H d new_block fuel with
    | none => none
    | some mined =>
      if validate_block S H d mined previous_block then
        let chain' := chain ++ [mined]
        some (true, chain', some (save_blockchain S H d chain'))
      else
        some (false, chain, none)

/-- The state of the persisted ledger file as `load_blockchain` finds it:
missing, a document whose read / JSON parse / field access raises (any
exception lands in the `except` branch, `errText` standing for `str(e)`), or
a fully parsed document carrying a well-typed block list. -/
inductive FileState where
  | absent : FileState
  | corrupt (errText : String) : FileState
  | parsed (ds : List BlockData) : FileState
deriving DecidableEq, Repr

/-- The block rebuilt from one persisted entry inside `load_blockchain`
(`block_data.get('nonce', 0)`; `.hash` not yet assigned). -/
def blockOfData (bd : BlockData) : Block :=
  { index := bd.index, timestamp := bd.timestamp, content_hash := bd.content_hash
    creator_public_key := bd.creator_public_key, signature := bd.signature
    previous_hash := bd.previous_hash, nonce := bd.nonce.getD 0, hash := "" }

/-- `Blockchain.load_blockchain`, with `cur` the chain held before the call:
a missing file leaves the chain untouched; any exception prints
`"Error loading blockchain: ..."` and resets the chain to `[]`; a parsed
document rebuilds every block and overwrites each `.hash` attribute with the
recomputed hash.  Returns the resulting chain and the printed messages. -/
def load_blockchain (S : BlockData → String) (H : String → String)
    (cur : List Block) : FileState → List Block × List String
  | .absent => (cur, [])
  | .corrupt errText => ([], ["Error loading blockchain: " ++ errText])
  | .parsed ds =>
    (ds.map fun bd =>
      let b := blockOfData bd
      { b with hash := b.calculate_hash S H }, [])

/-- `Blockchain.__init__`: difficulty 2, `self.chain = []`, load from the
file, and create (and save) the genesis block if the chain is still empty.
Returns the chain, the printed messages, and the document saved if any. -/
def initBlockchain (S : BlockData → String) (H : String → String)
    (fs : FileState) (ts : String) : List Block × List String × Option SavedDoc :=
  let loaded := load_blockchain S H [] fs
  if loaded.1.isEmpty then
    let g := genesisBlock S H ts
    ([g], loaded.2, some (save_blockchain S H 2 [g]))
  else
    (loaded.1, loaded.2, none)

/-- Chains reachable using only the constructor path and successful appends:
the genesis-only chain of a fresh ledger, extended by calls to `add_block`
that terminated and returned `True`. -/
inductive Built (S : BlockData → String) (H : String → String) (d : Nat) :
    List Block → Prop where
  | genesis (ts : String) : Built S H d [genesisBlock S H ts]
  | append (chain : List Block) (content_hash creator_public_key signature ts : String)
      (fuel : Nat) (chain' : List Block) (sv : Option SavedDoc) :
      Built S H d chain →
      add_block S H d chain content_hash creator_public_key signature ts fuel =
        some (true, chain', sv) →
      Built S H d chain'

/-- A single-field tampering of a block: the replacement value for one of the
four fields named by the spec (`content_hash`, `previous_hash`, `nonce`,
`index`). -/
inductive FieldMut where
  | contentHash (x : String)
  | prevHash (x : String)
  | nonceVal (n : Nat)
  | indexVal (i : Nat)
deriving DecidableEq, Repr

/-- Apply a single-field mutation, leaving every other field (including the
stored `.hash` attribute) unchanged. -/
def applyMut (b : Block) : FieldMut → Block
  | .contentHash x => { b with content_hash := x }
  | .prevHash x => { b with previous_hash := x }
  | .nonceVal n => { b with nonce := n }
  | .indexVal i => { b with index := i }

/-- The mutation actually changes the field it targets. -/
def mutChanges (b : Block) : FieldMut → Bool
  | .contentHash x => x != b.content_hash
  | .prevHash x => x != b.previous_hash
  | .nonceVal n => n != b.nonce
  | .indexVal i => i != b.index

/-- Comparison definition for C10, following the spec's reading: the pairwise
loop of `is_valid_chain` with the stored-hash-equality conjunct removed, so
that "the recomputed-hash-equality check can never fail on a freshly loaded
chain" can be stated as `is_valid_chain = linksOnlyValid` there. -/
def linksOnlyOk (S : BlockData → String) (H : String → String) (d : Nat) :
    Block → List Block → Bool
  | _, [] => true
  | previous_block, current_block :: rest =>
    validate_block S H d current_block previous_block &&
      linksOnlyOk S H d current_block rest

/-- `is_valid_chain` without the stored-hash conjunct (see `linksOnlyOk`). -/
def linksOnlyValid (S : BlockData → String) (H : String → String) (d : Nat) :
    List Block → Bool
  | [] => true
  | b :: rest => linksOnlyOk S H d b rest

/-!
Aggregation layer of `detection_engine.py` and `tamper_detector.py`.  The
individual detector methods (frequency, noise-residual, GAN-fingerprint,
diffusion, ELA, cloning, face-swap, splicing, re-encoding, metadata) are the
pixel-level forensic algorithms the spec treats as external collaborators
consumed through a `confidence + details` contract; each is modelled by the
confidence it returns for the given image.  Python float arithmetic on the
confidences is modelled exactly over `ℚ` (decimal literals become the equal
rationals).  The per-detector `details` dictionaries are opaque diagnostics
and are not modelled; `detection_signals` keeps each detector's identity and
confidence. -/

/-- The result dictionary of `AIGenerationDetector.detect_ai_generated`. -/
structure AIDetectionResult where
  is_ai_generated : Bool
  overall_confidence : ℚ
  detection_signals : List (String × ℚ)
  note : Option String
  error : Option String
  evidence : List String
  method_used : String
deriving DecidableEq, Repr

/-- Evidence string emitted for the frequency-artifact detector. -/
def evFreq : String := "Unnatural frequency domain patterns detected"

/-- Evidence string emitted for the noise-residual detector. -/
def evNoise : String := "Suspicious noise residual patterns detected"

/-- Evidence string emitted for the GAN-fingerprint detector. -/
def evGan : String := "GAN fingerprint patterns detected"

/-- Evidence string emitted for the diffusion-artifact detector. -/
def evDiff : String := "Diffusion model artifacts detected"

/-- `AIGenerationDetector.detect_ai_generated`, as a function of the content
type and of the confidences the four registered image detectors return
(`detect_frequency_artifacts`, `detect_noise_residual_patterns`,
`detect_gan_fingerprints`, `detect_diffusion_artifacts`). -/
def detect_ai_generated (content_type : String)
    (freq_conf noise_conf gan_conf diff_conf : ℚ) : AIDetectionResult :=
  if content_type = "image" then
    let weighted_confidence : ℚ :=
      freq_conf * (1/4) + noise_conf * (1/4) + gan_conf * (1/4) + diff_conf * (1/4)
    { is_ai_generated := decide (weighted_confidence > 1/2)
      overall_confidence := weighted_confidence
      detection_signals :=
        [("frequency_analysis", freq_conf), ("noise_analysis", noise_conf),
          ("gan_fingerprint", gan_conf), ("diffusion_artifact", diff_conf)]
      note := none
      error := none
      evidence :=
        (if freq_conf > 1/2 then [evFreq] else []) ++
          (if noise_conf > 1/2 then [evNoise] else []) ++
          (if gan_conf > 1/2 then [evGan] else []) ++
          (if diff_conf > 1/2 then [evDiff] else [])
      method_used := "multi_signal_analysis" }
  else if content_type = "video" then
    { is_ai_generated := false
      overall_confidence := 3/10
      detection_signals := []
      note := some "Video analysis requires actual frame data extraction for full analysis"
      error := none
      evidence := []
      method_used := "multi_signal_analysis" }
  else
    { is_ai_generated := false
      overall_confidence := 0
      detection_signals := []
      note := none
      error := some ("Unsupported content type: " ++ content_type)
      evidence := []
      method_used := "multi_signal_analysis" }

/-- The result dictionary of `TamperDetector.detect_manipulation`. -/
structure TamperDetectionResult where
  is_manipulated : Bool
  overall_confidence : ℚ
  manipulation_signals : List (String × ℚ)
  note : Option String
  error : Option String
  evidence : List String
  method_used : String
deriving DecidableEq, Repr

/-- Evidence string emitted for the error-level-analysis detector. -/
def evEla : String := "Error Level Analysis indicates possible re-compression"

/-- Evidence string emitted for the cloning detector. -/
def evClone : String := "Cloning/forgery patterns detected"

/-- Evidence string emitted for the face-swap detector. -/
def evFace : String := "Suspicious facial features detected"

/-- Evidence string emitted for the splicing detector. -/
def evSplice : String := "Possible image splicing detected"

/-- Evidence string emitted for the re-encoding detector. -/
def evReenc : String := "Re-encoding inconsistencies detected"

/-- Evidence string emitted for the metadata-mismatch detector. -/
def evMeta : String := "Metadata does not match visual content"

/-- `TamperDetector.detect_manipulation`, as a function of the content type
and of the confidences the six registered image detectors return
(`error_level_analysis`, `detect_cloning_tampering`, `detect_face_swaps`,
`detect_splicing_tampering`, `detect_re_encoding_inconsistencies`,
`detect_metadata_visual_mismatch`). -/
def detect_manipulation (content_type : String)
    (ela_conf clone_conf face_conf splice_conf reenc_conf meta_conf : ℚ) :
    TamperDetectionResult :=
  if content_type = "image" then
    let weighted_confidence : ℚ :=
      ela_conf * (1/5) + clone_conf * (3/20) + face_conf * (3/20) +
        splice_conf * (1/5) + reenc_conf * (3/20) + meta_conf * (3/20)
    { is_manipulated := decide (weighted_confidence > 1/2)
      overall_confidence := weighted_confidence
      manipulation_signals :=
        [("error_level_analysis", ela_conf), ("cloning_detection", clone_conf),
          ("face_swap_detection", face_conf), ("splicing_detection", splice_conf),
          ("re_encoding_analysis", reenc_conf), ("metadata_visual_match", meta_conf)]
      note := none
      error := none
      evidence :=
        (if ela_conf > 1/2 then [evEla] else []) ++
          (if clone_conf > 1/2 then [evClone] else []) ++
          (if face_conf > 1/2 then [evFace] else []) ++
          (if splice_conf > 1/2 then [evSplice] else []) ++
          (if reenc_conf > 1/2 then [evReenc] else []) ++
          (if meta_conf > 1/2 then [evMeta] else [])
      method_used := "multi_method_analysis" }
  else if content_type = "video" then
    { is_manipulated := false
      overall_confidence := 1/5
      manipulation_signals := []
      note := some "Video manipulation detection requires specialized frame-by-frame analysis"
      error := none
      evidence := ["Video analysis requires additional frame-level processing"]
      method_used := "multi_method_analysis" }
  else
    { is_manipulated := false
      overall_confidence := 0
      manipulation_signals := []
      note := none
      error := some ("Unsupported content type: " ++ content_type)
      evidence := []
      method_used := "multi_method_analysis" }

/-!
Concrete instantiations of the external primitives, used by witnesses and
counterexamples.  They are stand-ins for the external serializer / digest /
verify capability at concrete evaluation points; no theorem about the code
itself depends on them.
-/

/-- A concrete serializer for witnesses: the seven dictionary fields joined
with `|`. -/
def sampleSer (bd : BlockData) : String :=
  bd.content_hash ++ "|" ++ bd.creator_public_key ++ "|" ++ toString bd.index ++ "|" ++
    toString (bd.nonce.getD 0) ++ "|" ++ bd.previous_hash ++ "|" ++ bd.signature ++ "|" ++
    bd.timestamp

/-- A concrete digest for witnesses: prefix the serialization with `"00"`, so
the difficulty-2 target is met at nonce 0 and distinct serializations keep
distinct digests. -/
def sampleHash (s : String) : String :=
  "00" ++ s

/-- A concrete digest for the divergence counter-model: every input digests to
the 64-character all-zero string — the most favourable digest a 64-hex-char
hash function can produce for a leading-zeros target. -/
def allZeroDigest : String → String :=
  fun _ => genesisContentHash

/-- An Identity-verify capability under which no signature verifies. -/
def rejectAllVerify : String → String → String → Bool :=
  fun _ _ _ => false

/-- The genesis block of the witness ledger. -/
def sampleGenesis : Block :=
  genesisBlock sampleSer sampleHash "t0"

/-- The witness ledger immediately after construction. -/
def sampleChain1 : List Block :=
  [sampleGenesis]

/-- The block `add_block` mines on `sampleChain1` for content hash `"aa"`,
creator `"pk"`, signature `"sig"`, timestamp `"t1"`: nonce 0 already meets the
difficulty-2 target under `sampleHash`. -/
def sampleBlock1 : Block :=
  let c := candidateBlock sampleSer sampleHash sampleChain1 "aa" "pk" "sig" "t1"
  { c with hash := c.calculate_hash sampleSer sampleHash }

/-- The witness ledger after one successful append. -/
def sampleChain2 : List Block :=
  sampleChain1 ++ [sampleBlock1]

/-- The triple returned by the first witness append. -/
def sampleResult : Bool × List Block × Option SavedDoc :=
  (true, sampleChain2, some (save_blockchain sampleSer sampleHash 2 sampleChain2))

/-- The block `add_block` mines when called on `sampleChain2` with the content
hash `"aa"` that `sampleBlock1` already registered. -/
def sampleBlock2 : Block :=
  let c := candidateBlock sampleSer sampleHash sampleChain2 "aa" "pk2" "sig2" "t2"
  { c with hash := c.calculate_hash sampleSer sampleHash }

/-!  Helper lemmas about the embedded ledger operations. -/

/-- `calculate_hash` depends only on `to_dict`, which excludes the stored
`.hash` attribute. -/
theorem calculate_hash_set_hash (S : BlockData → String) (H : String → String)
    (b : Block) (x : String) :
    ({ b with hash := x } : Block).calculate_hash S H = b.calculate_hash S H := rfl

/-- What a successful nonce search returns: the first satisfying nonce at or
after the start, with every earlier attempt failing the target. -/
theorem findNonce_spec (S : BlockData → String) (H : String → String) (d : Nat) (b : Block) :
    ∀ (fuel n0 n : Nat), findNonce S H d b fuel n0 = some n →
      strStartsWith (({ b with nonce := n } : Block).calculate_hash S H) (zeroString d) = true ∧
      n0 ≤ n ∧
      ∀ m, n0 ≤ m → m < n →
        strStartsWith (({ b with nonce := m } : Block).calculate_hash S H) (zeroString d) = false := by
  intro fuel
  induction fuel with
  | zero => intro n0 n h; simp [findNonce] at h
  | succ fuel ih =>
    intro n0 n h
    rw [findNonce] at h
    by_cases hc :
        strStartsWith (({ b with nonce := n0 } : Block).calculate_hash S H) (zeroString d) = true
    · rw [if_pos hc] at h
      cases h
      exact ⟨hc, Nat.le_refl _, fun m hm1 hm2 => absurd (Nat.lt_of_le_of_lt hm1 hm2) (Nat.lt_irrefl _)⟩
    · rw [if_neg hc] at h
      simp only [Bool.not_eq_true] at hc
      obtain ⟨h1, h2, h3⟩ := ih (n0 + 1) n h
      refine ⟨h1, Nat.le_of_succ_le h2, fun m hm1 hm2 => ?_⟩
      rcases Nat.eq_or_lt_of_le hm1 with heq | hlt
      · rw [← heq]; exact hc
      · exact h3 m (Nat.succ_le_of_lt hlt) hm2

/-- What `proof_of_work` produces: the input block with only the nonce and the
stored hash changed, the stored hash equal to the recomputed hash, the
difficulty target met, and every smaller nonce failing the target. -/
theorem proof_of_work_spec (S : BlockData → String) (H : String → String) (d : Nat)
    (b : Block) (fuel : Nat) (mined : Block)
    (h : proof_of_work S H d b fuel = some mined) :
    mined = { b with nonce := mined.nonce, hash := mined.hash } ∧
    mined.hash = mined.calculate_hash S H ∧
    strStartsWith (mined.calculate_hash S H) (zeroString d) = true ∧
    ∀ m, m < mined.nonce →
      strStartsWith (({ b with nonce := m } : Block).calculate_hash S H) (zeroString d) = false := by
  unfold proof_of_work at h
  cases hfn : findNonce S H d b fuel 0 with
  | none => rw [hfn] at h; cases h
  | some n =>
    rw [hfn] at h
    obtain ⟨h1, _, h3⟩ := findNonce_spec S H d b fuel 0 n hfn
    cases h
    refine ⟨rfl, rfl, by simpa using h1, fun m hm => h3 m (Nat.zero_le m) (by simpa using hm)⟩

/-- The mined candidate always passes `validate_block` against the tail it was
built from: index continuity and previous-hash linkage hold by construction,
proof-of-work holds by mining, and the signature is never checked. -/
theorem validate_block_mined (S : BlockData → String) (H : String → String) (d : Nat)
    (chain : List Block) (content_hash creator_public_key signature ts : String)
    (fuel : Nat) (mined : Block)
    (h : proof_of_work S H d
        (candidateBlock S H chain content_hash creator_public_key signature ts) fuel =
      some mined) :
    validate_block S H d mined (chain.getLastD defaultBlock) = true := by
  obtain ⟨hshape, _, hpow, _⟩ := proof_of_work_spec S H d _ fuel mined h
  have hidx : mined.index = (chain.getLastD defaultBlock).index + 1 := by rw [hshape]; rfl
  have hprev : mined.previous_hash = (chain.getLastD defaultBlock).calculate_hash S H := by
    rw [hshape]; rfl
  simp [validate_block, hidx, hprev, hpow]

/-- Characterization of every terminating `add_block` call on a non-empty
chain: mining succeeded, the mined candidate passed validation, `True` was
returned, the block was appended, and the full new chain snapshot was the
document saved. -/
theorem add_block_some (S : BlockData → String) (H : String → String) (d : Nat)
    (chain : List Block) (content_hash creator_public_key signature ts : String)
    (fuel : Nat) (r : Bool × List Block × Option SavedDoc)
    (hne : chain ≠ [])
    (h : add_block S H d chain content_hash creator_public_key signature ts fuel = some r) :
    ∃ mined,
      proof_of_work S H d
          (candidateBlock S H chain content_hash creator_public_key signature ts) fuel =
        some mined ∧
      validate_block S H d mined (chain.getLastD defaultBlock) = true ∧
      r = (true, chain ++ [mined], some (save_blockchain S H d (chain ++ [mined]))) := by
  have hemp : chain.isEmpty = false := by simp [List.isEmpty_iff, hne]
  unfold add_block at h
  rw [hemp] at h
  simp only [Bool.false_eq_true, if_false] at h
  cases hpw : proof_of_work S H d
      (candidateBlock S H chain content_hash creator_public_key signature ts) fuel with
  | none => rw [hpw] at h; cases h
  | some mined =>
    rw [hpw] at h
    dsimp only at h
    have hv := validate_block_mined S H d chain content_hash creator_public_key signature ts
      fuel mined hpw
    rw [if_pos hv] at h
    simp only [Option.some.injEq] at h
    exact ⟨mined, rfl, hv, h.symm⟩

/-- Appending one block to the pairwise loop. -/
theorem chainOk_append (S : BlockData → String) (H : String → String) (d : Nat) :
    ∀ (l : List Block) (prev x : Block),
      chainOk S H d prev (l ++ [x]) =
        (chainOk S H d prev l &&
          (validate_block S H d x (l.getLastD prev) && (x.calculate_hash S H == x.hash))) := by
  intro l
  induction l with
  | nil => intro prev x; simp [chainOk]
  | cons a l ih =>
    intro prev x
    simp only [List.cons_append, chainOk, List.append_eq, ih a x, List.getLastD_cons,
      Bool.and_assoc]

/-- `is_valid_chain` over a snoc decomposes into the old validity and the
checks of the final pair. -/
theorem is_valid_chain_append (S : BlockData → String) (H : String → String) (d : Nat)
    (chain : List Block) (x : Block) (hne : chain ≠ []) :
    is_valid_chain S H d (chain ++ [x]) =
      (is_valid_chain S H d chain &&
        (validate_block S H d x (chain.getLastD defaultBlock) &&
          (x.calculate_hash S H == x.hash))) := by
  cases chain with
  | nil => cases hne rfl
  | cons a l =>
    simp only [List.cons_append, is_valid_chain, chainOk_append, List.getLastD_cons]

/-- If the checks of one inner block fail, the whole loop reports `false`. -/
theorem chainOk_middle_false (S : BlockData → String) (H : String → String) (d : Nat) :
    ∀ (l1 : List Block) (prev x : Block) (l2 : List Block),
      (validate_block S H d x (l1.getLastD prev) && (x.calculate_hash S H == x.hash)) = false →
      chainOk S H d prev (l1 ++ x :: l2) = false := by
  intro l1
  induction l1 with
  | nil =>
    intro prev x l2 hf
    simp only [List.getLastD_nil] at hf
    simp only [List.nil_append, chainOk]
    rw [hf, Bool.false_and]
  | cons a l ih =>
    intro prev x l2 hf
    rw [List.getLastD_cons] at hf
    simp only [List.cons_append, chainOk, List.append_eq]
    rw [ih a x l2 hf, Bool.and_false]

/-- A chain built by successful appends is never empty. -/
theorem built_ne_nil (S : BlockData → String) (H : String → String) (d : Nat)
    (c : List Block) (h : Built S H d c) : c ≠ [] := by
  induction h with
  | genesis ts => simp
  | append chain content_hash creator_public_key signature ts fuel chain' sv hb heq ih =>
    obtain ⟨mined, _, _, hr⟩ :=
      add_block_some S H d chain content_hash creator_public_key signature ts fuel _ ih heq
    simp only [Prod.mk.injEq] at hr
    rw [hr.2.1]
    simp

/-- On a chain built by successful appends, every stored `.hash` attribute
equals the recomputed hash. -/
theorem built_hash_stored (S : BlockData → String) (H : String → String) (d : Nat)
    (c : List Block) (h : Built S H d c) :
    ∀ b ∈ c, b.hash = b.calculate_hash S H := by
  induction h with
  | genesis ts =>
    intro b hb
    simp only [List.mem_singleton] at hb
    subst hb
    rfl
  | append chain content_hash creator_public_key signature ts fuel chain' sv hb heq ih =>
    obtain ⟨mined, hpw, _, hr⟩ :=
      add_block_some S H d chain content_hash creator_public_key signature ts fuel _
        (built_ne_nil S H d chain hb) heq
    simp only [Prod.mk.injEq] at hr
    intro b hbm
    rw [hr.2.1] at hbm
    rcases List.mem_append.mp hbm with hin | hlast
    · exact ih b hin
    · simp only [List.mem_singleton] at hlast
      rw [hlast]
      exact (proof_of_work_spec S H d _ fuel mined hpw).2.1

/-- Every chain built by successful appends passes `is_valid_chain`. -/
theorem built_valid (S : BlockData → String) (H : String → String) (d : Nat)
    (c : List Block) (h : Built S H d c) : is_valid_chain S H d c = true := by
  induction h with
  | genesis ts => rfl
  | append chain content_hash creator_public_key signature ts fuel chain' sv hb heq ih =>
    obtain ⟨mined, hpw, hv, hr⟩ :=
      add_block_some S H d chain content_hash creator_public_key signature ts fuel _
        (built_ne_nil S H d chain hb) heq
    simp only [Prod.mk.injEq] at hr
    rw [hr.2.1, is_valid_chain_append S H d chain mined (built_ne_nil S H d chain hb)]
    have hh : mined.hash = mined.calculate_hash S H :=
      (proof_of_work_spec S H d _ fuel mined hpw).2.1
    rw [ih, hv, hh]
    simp

/-- A single-field mutation leaves the stored `.hash` attribute unchanged. -/
theorem applyMut_hash (b : Block) (m : FieldMut) : (applyMut b m).hash = b.hash := by
  cases m <;> rfl

/-- If every stored hash matches its recomputed hash, the pairwise loop
reduces to the linkage-and-proof-of-work checks alone. -/
theorem chainOk_eq_linksOnly (S : BlockData → String) (H : String → String) (d : Nat) :
    ∀ (l : List Block) (prev : Block),
      (∀ b ∈ l, b.calculate_hash S H = b.hash) →
      chainOk S H d prev l = linksOnlyOk S H d prev l := by
  intro l
  induction l with
  | nil => intro prev _; rfl
  | cons a l ih =>
    intro prev hall
    have ha : a.calculate_hash S H = a.hash := hall a (List.mem_cons_self a l)
    simp only [chainOk, linksOnlyOk, ha, beq_self_eq_true, Bool.and_true,
      ih a fun b hb => hall b (List.mem_cons_of_mem a hb)]

/-- If no nonce at all meets the difficulty target, the nonce search never
returns, whatever the fuel: the source `while` loop runs forever. -/
theorem findNonce_none_of_never (S : BlockData → String) (H : String → String) (d : Nat)
    (b : Block)
    (hnever : ∀ n,
      strStartsWith (({ b with nonce := n } : Block).calculate_hash S H) (zeroString d) = false) :
    ∀ fuel n0, findNonce S H d b fuel n0 = none := by
  intro fuel
  induction fuel with
  | zero => intro n0; rfl
  | succ fuel ih =>
    intro n0
    rw [findNonce, if_neg (by simp [hnever n0])]
    exact ih (n0 + 1)

/-- Membership in a conditional singleton, the shape of each evidence
emission. -/
theorem mem_ite_singleton {α : Type} (c : Prop) [Decidable c] (a x : α) :
    (x ∈ (if c then [a] else [])) ↔ (x = a ∧ c) := by
  split_ifs with h
  · simp [h]
  · simp [h]

/-!  The claims. -/

/-- C9: calling `add_block` on a ledger whose chain is empty returns `False`
without appending any block and without writing to persistent storage, for
every combination of content hash, creator public key, and signature (and
every hash/serializer primitive, difficulty, timestamp and fuel). -/
theorem c9_empty_chain_rejects (S : BlockData → String) (H : String → String) (d : Nat)
    (content_hash creator_public_key signature ts : String) (fuel : Nat) :
    add_block S H d [] content_hash creator_public_key signature ts fuel =
      some (false, [], none) := rfl

/-- C7: for every corrupt or unreadable persisted ledger document, `__init__`
returns normally (the `except` branch catches the error), reinitializes to a
genesis-only chain of length 1, and prints the load-error notification
`"Error loading blockchain: ..."`, which a normal cold start (missing file)
never prints. -/
theorem c7_corrupt_load_reinitializes (S : BlockData → String) (H : String → String)
    (errText ts : String) :
    initBlockchain S H (.corrupt errText) ts =
      ([genesisBlock S H ts], ["Error loading blockchain: " ++ errText],
        some (save_blockchain S H 2 [genesisBlock S H ts])) ∧
    (initBlockchain S H (.corrupt errText) ts).1.length = 1 ∧
    (initBlockchain S H (.corrupt errText) ts).2.1 ≠ (initBlockchain S H .absent ts).2.1 := by
  refine ⟨rfl, rfl, ?_⟩
  simp [initBlockchain, load_blockchain]

/-- Witness for C7 at a concrete corrupt document: the error text `"boom"`
with the witness primitives. -/
theorem c7_witness :
    initBlockchain sampleSer sampleHash (.corrupt "boom") "t0" =
      ([genesisBlock sampleSer sampleHash "t0"], ["Error loading blockchain: " ++ "boom"],
        some (save_blockchain sampleSer sampleHash 2 [genesisBlock sampleSer sampleHash "t0"])) ∧
    (initBlockchain sampleSer sampleHash (.corrupt "boom") "t0").1.length = 1 ∧
    (initBlockchain sampleSer sampleHash (.corrupt "boom") "t0").2.1 ≠
      (initBlockchain sampleSer sampleHash .absent "t0").2.1 :=
  c7_corrupt_load_reinitializes sampleSer sampleHash "boom" "t0"

/-- C10: immediately after a successful `load_blockchain`, every block's
stored hash equals its recomputed hash (loading overwrites each `.hash` with
`calculate_hash`), and consequently the stored-hash-equality check of
`is_valid_chain` can never fail on a freshly loaded chain: `is_valid_chain`
coincides with the linkage-and-proof-of-work checks alone. -/
theorem c10_load_recomputes_hashes (S : BlockData → String) (H : String → String)
    (d : Nat) (ds : List BlockData) :
    ((load_blockchain S H [] (.parsed ds)).1.all
        fun b => b.calculate_hash S H == b.hash) = true ∧
    is_valid_chain S H d (load_blockchain S H [] (.parsed ds)).1 =
      linksOnlyValid S H d (load_blockchain S H [] (.parsed ds)).1 := by
  have hall : ∀ b ∈ (load_blockchain S H [] (.parsed ds)).1,
      b.calculate_hash S H = b.hash := by
    intro b hb
    simp only [load_blockchain, List.mem_map] at hb
    obtain ⟨bd, _, rfl⟩ := hb
    rfl
  constructor
  · rw [List.all_eq_true]
    intro b hb
    exact beq_iff_eq.mpr (hall b hb)
  · cases hl : (load_blockchain S H [] (.parsed ds)).1 with
    | nil => rfl
    | cons a l =>
      simp only [is_valid_chain, linksOnlyValid]
      apply chainOk_eq_linksOnly
      intro b hb
      exact hall b (hl ▸ List.mem_cons_of_mem a hb)

/-- C3: the proof-of-work nonce search is NOT bounded.  At difficulty 65 — a
difficulty setting the claim quantifies over, and one no 64-hex-character
digest can ever satisfy, here witnessed by the digest that returns the most
favourable possible value, 64 zero characters, on every input — the search
never returns for any amount of fuel: the source loop runs forever, and no
`MiningTimeoutError` exists anywhere in the repository to be raised.  This
theorem records the divergent behaviour of the code at that failing input. -/
theorem c3_mining_search_unbounded (fuel : Nat) :
    proof_of_work sampleSer allZeroDigest 65
        (candidateBlock sampleSer allZeroDigest [genesisBlock sampleSer allZeroDigest "t0"]
          "aa" "pk" "sig" "t1") fuel = none ∧
    add_block sampleSer allZeroDigest 65 [genesisBlock sampleSer allZeroDigest "t0"]
      "aa" "pk" "sig" "t1" fuel = none := by
  have hnever : ∀ (b : Block) (n : Nat),
      strStartsWith (({ b with nonce := n } : Block).calculate_hash sampleSer allZeroDigest)
        (zeroString 65) = false := by
    intro b n
    show strStartsWith genesisContentHash (zeroString 65) = false
    decide
  have hfn :=
    findNonce_none_of_never sampleSer allZeroDigest 65
      (candidateBlock sampleSer allZeroDigest [genesisBlock sampleSer allZeroDigest "t0"]
        "aa" "pk" "sig" "t1")
      (hnever _) fuel 0
  constructor
  · simp [proof_of_work, hfn]
  · simp [add_block, proof_of_work, hfn]

/-- C1: `add_block` accepts a block whose signature does NOT verify against
the creator's public key over the content hash: under an Identity-verify
capability that rejects every signature, the append still succeeds, extends
the chain and persists it.  `validate_block` never invokes
`verify_signature`; the source comments that the signature is accepted as
valid without verification. -/
theorem c1_unverified_signature_accepted :
    verify_signature rejectAllVerify "aa" "sig" "pk" = false ∧
    add_block sampleSer sampleHash 2 sampleChain1 "aa" "pk" "sig" "t1" 1 =
      some (true, sampleChain2, some (save_blockchain sampleSer sampleHash 2 sampleChain2)) :=
  ⟨rfl, by decide⟩

/-- C2: for every terminating call to `add_block` on a non-empty chain,
validation of the mined candidate succeeds (first conjunct below) — so the
claim's failure clause can never fire: no execution exists in which validation
of the mined candidate fails (in that unreachable branch the code would
return `False` with the chain unchanged and nothing persisted; no
`ValidationError` class exists in the repository to be raised) — and on the
always-taken success path the block is appended and the full new chain
snapshot is the persisted document, with `True` returned. -/
theorem c2_append_all_or_nothing (S : BlockData → String) (H : String → String) (d : Nat)
    (chain : List Block) (content_hash creator_public_key signature ts : String)
    (fuel : Nat) (r : Bool × List Block × Option SavedDoc)
    (hne : chain ≠ [])
    (h : add_block S H d chain content_hash creator_public_key signature ts fuel = some r) :
    ∃ mined,
      validate_block S H d mined (chain.getLastD defaultBlock) = true ∧
      r.1 = true ∧
      r.2.1 = chain ++ [mined] ∧
      r.2.2 = some (save_blockchain S H d (chain ++ [mined])) := by
  obtain ⟨mined, _, hv, hr⟩ :=
    add_block_some S H d chain content_hash creator_public_key signature ts fuel r hne h
  exact ⟨mined, hv, by rw [hr], by rw [hr], by rw [hr]⟩

/-- Witness for C2 at a concrete call: appending content hash `"aa"` to the
genesis-only witness ledger. -/
theorem c2_witness :
    ∃ mined,
      validate_block sampleSer sampleHash 2 mined (sampleChain1.getLastD defaultBlock) = true ∧
      sampleResult.1 = true ∧
      sampleResult.2.1 = sampleChain1 ++ [mined] ∧
      sampleResult.2.2 = some (save_blockchain sampleSer sampleHash 2 (sampleChain1 ++ [mined])) :=
  c2_append_all_or_nothing sampleSer sampleHash 2 sampleChain1 "aa" "pk" "sig" "t1" 1
    sampleResult (by decide) (by decide)

/-- C6: every block accepted by `add_block` satisfies proof-of-work — its
hash (stored and recomputed) has at least `difficulty` leading zero
characters — its nonce is the least satisfying one (the search starts from
nonce 0 and increments), its index is the previous block's index plus one,
and its `previous_hash` equals the hash of the previous block. -/
theorem c6_accepted_block_pow (S : BlockData → String) (H : String → String) (d : Nat)
    (chain : List Block) (content_hash creator_public_key signature ts : String)
    (fuel : Nat) (res : Bool × List Block × Option SavedDoc)
    (h : add_block S H d chain content_hash creator_public_key signature ts fuel = some res)
    (htrue : res.1 = true) :
    ∃ b, res.2.1 = chain ++ [b] ∧
      b.index = (chain.getLastD defaultBlock).index + 1 ∧
      b.previous_hash = (chain.getLastD defaultBlock).calculate_hash S H ∧
      b.hash = b.calculate_hash S H ∧
      strStartsWith (b.calculate_hash S H) (zeroString d) = true ∧
      ∀ m, m < b.nonce →
        strStartsWith (({ b with nonce := m } : Block).calculate_hash S H)
          (zeroString d) = false := by
  by_cases hne : chain = []
  · subst hne
    have h' : (some ((false, [], none) : Bool × List Block × Option SavedDoc)) = some res := h
    simp only [Option.some.injEq] at h'
    rw [← h'] at htrue
    simp at htrue
  · obtain ⟨mined, hpw, _, hr⟩ :=
      add_block_some S H d chain content_hash creator_public_key signature ts fuel res hne h
    obtain ⟨hshape, hhash, hpow, hmin⟩ := proof_of_work_spec S H d _ fuel mined hpw
    refine ⟨mined, by rw [hr], ?_, ?_, hhash, hpow, ?_⟩
    · rw [hshape]; rfl
    · rw [hshape]; rfl
    · intro m hm
      have hcalc : ({ mined with nonce := m } : Block).calculate_hash S H =
          ({ (candidateBlock S H chain content_hash creator_public_key signature ts) with
              nonce := m } : Block).calculate_hash S H := by
        rw [hshape]
        simp only [Block.calculate_hash, Block.to_dict]
      rw [hcalc]
      exact hmin m hm

/-- Witness for C6 at a concrete call: the block accepted on the genesis-only
witness ledger. -/
theorem c6_witness :
    ∃ b, sampleResult.2.1 = sampleChain1 ++ [b] ∧
      b.index = (sampleChain1.getLastD defaultBlock).index + 1 ∧
      b.previous_hash = (sampleChain1.getLastD defaultBlock).calculate_hash sampleSer sampleHash ∧
      b.hash = b.calculate_hash sampleSer sampleHash ∧
      strStartsWith (b.calculate_hash sampleSer sampleHash) (zeroString 2) = true ∧
      ∀ m, m < b.nonce →
        strStartsWith (({ b with nonce := m } : Block).calculate_hash sampleSer sampleHash)
          (zeroString 2) = false :=
  c6_accepted_block_pow sampleSer sampleHash 2 sampleChain1 "aa" "pk" "sig" "t1" 1
    sampleResult (by decide) (by decide)

/-- C4 counterexample: the content hash `"aa"` is already registered in the
witness ledger, yet calling `add_block` again with `"aa"` is not rejected —
no duplicate check exists in `add_block` and no `DuplicateRegistrationError`
exists in the repository — the call returns `True` and extends the chain. -/
theorem c4_counterexample :
    "aa" ∈ sampleChain2.map Block.content_hash ∧
    add_block sampleSer sampleHash 2 sampleChain2 "aa" "pk2" "sig2" "t2" 1 =
      some (true, sampleChain2 ++ [sampleBlock2],
        some (save_blockchain sampleSer sampleHash 2 (sampleChain2 ++ [sampleBlock2]))) ∧
    (sampleChain2 ++ [sampleBlock2]).length = sampleChain2.length + 1 :=
  ⟨by decide, by decide, by decide⟩

/-- C4 amended: `add_block` performs no duplicate-content-hash check.  For
every terminating call on a non-empty chain whose content hash is already
present in some block, the call still returns `True` and appends a further
block carrying that same content hash (deduplication happens only in the
orchestrator path, not at the ledger layer). -/
theorem c4_duplicate_hash_appended (S : BlockData → String) (H : String → String) (d : Nat)
    (chain : List Block) (content_hash creator_public_key signature ts : String)
    (fuel : Nat) (r : Bool × List Block × Option SavedDoc)
    (hne : chain ≠ [])
    (_hdup : content_hash ∈ chain.map Block.content_hash)
    (h : add_block S H d chain content_hash creator_public_key signature ts fuel = some r) :
    r.1 = true ∧ ∃ b, r.2.1 = chain ++ [b] ∧ b.content_hash = content_hash := by
  obtain ⟨mined, hpw, _, hr⟩ :=
    add_block_some S H d chain content_hash creator_public_key signature ts fuel r hne h
  obtain ⟨hshape, _, _, _⟩ := proof_of_work_spec S H d _ fuel mined hpw
  refine ⟨by rw [hr], mined, by rw [hr], ?_⟩
  rw [hshape]; rfl

/-- Witness for the amended C4 at a concrete call: re-registering `"aa"` on
the two-block witness ledger. -/
theorem c4_witness :
    ((true, sampleChain2 ++ [sampleBlock2],
        some (save_blockchain sampleSer sampleHash 2 (sampleChain2 ++ [sampleBlock2]))) :
      Bool × List Block × Option SavedDoc).1 = true ∧
    ∃ b,
      ((true, sampleChain2 ++ [sampleBlock2],
          some (save_blockchain sampleSer sampleHash 2 (sampleChain2 ++ [sampleBlock2]))) :
        Bool × List Block × Option SavedDoc).2.1 = sampleChain2 ++ [b] ∧
      b.content_hash = "aa" :=
  c4_duplicate_hash_appended sampleSer sampleHash 2 sampleChain2 "aa" "pk2" "sig2" "t2" 1
    (true, sampleChain2 ++ [sampleBlock2],
      some (save_blockchain sampleSer sampleHash 2 (sampleChain2 ++ [sampleBlock2])))
    (by decide) (by decide) (by decide)

/-- C5: chain validation is tamper-evident.  (a) Every chain built only by
successful appends passes `is_valid_chain`; (b) replacing any single field
(`content_hash`, `previous_hash`, `nonce` or `index`) of any single
non-genesis block of such a chain with a different value makes
`is_valid_chain` return `false`, provided the mutated block's serialized
dictionary does not collide with the original's under the digest — the
collision-freeness the claim implicitly assumes of SHA-256, stated here as an
explicit hypothesis at the mutation point; (c) every chain of length at most
1 is reported valid. -/
theorem c5_tamper_evidence (S : BlockData → String) (H : String → String) (d : Nat) :
    (∀ chain, Built S H d chain → is_valid_chain S H d chain = true) ∧
    (∀ (pre : List Block) (b : Block) (suf : List Block) (m : FieldMut),
      Built S H d (pre ++ b :: suf) → pre ≠ [] → mutChanges b m = true →
      (applyMut b m).calculate_hash S H ≠ b.calculate_hash S H →
      is_valid_chain S H d (pre ++ applyMut b m :: suf) = false) ∧
    (∀ chain : List Block, chain.length ≤ 1 → is_valid_chain S H d chain = true) := by
  refine ⟨fun chain hb => built_valid S H d chain hb, ?_, ?_⟩
  · intro pre b suf m hb hpre _ hneq
    have hmem : b ∈ pre ++ b :: suf :=
      List.mem_append.mpr (Or.inr (List.mem_cons_self b suf))
    have hhash : b.hash = b.calculate_hash S H := built_hash_stored S H d _ hb b hmem
    have hfail : ((applyMut b m).calculate_hash S H == (applyMut b m).hash) = false := by
      rw [applyMut_hash, hhash]
      exact beq_eq_false_iff_ne.mpr hneq
    cases pre with
    | nil => cases hpre rfl
    | cons p ps =>
      show is_valid_chain S H d (p :: (ps ++ applyMut b m :: suf)) = false
      simp only [is_valid_chain]
      apply chainOk_middle_false
      rw [hfail, Bool.and_false]
  · intro chain hlen
    cases chain with
    | nil => rfl
    | cons a l =>
      cases l with
      | nil => rfl
      | cons c cs => simp only [List.length_cons] at hlen; omega

/-- Witness for C5 at concrete data: the two-block witness ledger is valid,
and replacing the content hash of its non-genesis block with `"bb"` makes
`is_valid_chain` report `false`. -/
theorem c5_witness :
    is_valid_chain sampleSer sampleHash 2 sampleChain2 = true ∧
    is_valid_chain sampleSer sampleHash 2
      (sampleChain1 ++ applyMut sampleBlock1 (.contentHash "bb") :: []) = false := by
  have h := c5_tamper_evidence sampleSer sampleHash 2
  have hbuilt : Built sampleSer sampleHash 2 sampleChain2 :=
    Built.append sampleChain1 "aa" "pk" "sig" "t1" 1 sampleChain2
      (some (save_blockchain sampleSer sampleHash 2 sampleChain2))
      (Built.genesis "t0") (by decide)
  exact ⟨h.1 sampleChain2 hbuilt,
    h.2.1 sampleChain1 sampleBlock1 [] (.contentHash "bb") hbuilt (by decide) (by decide)
      (by decide)⟩

/-- C8: for every image input, category evaluation invokes every registered
detector with no short-circuiting — the signals record carries every
detector's identity and confidence — the overall confidence equals the
weighted sum of the individual detector confidences (weights 0.25 each for
the four AI-generation detectors; 0.2, 0.15, 0.15, 0.2, 0.15, 0.15 for the
six tampering detectors), and an evidence string is emitted for exactly those
detectors whose individual confidence exceeds 0.5. -/
theorem c8_aggregation_exhaustive
    (freq_conf noise_conf gan_conf diff_conf : ℚ)
    (ela_conf clone_conf face_conf splice_conf reenc_conf meta_conf : ℚ) :
    ((detect_ai_generated "image" freq_conf noise_conf gan_conf diff_conf).detection_signals =
        [("frequency_analysis", freq_conf), ("noise_analysis", noise_conf),
          ("gan_fingerprint", gan_conf), ("diffusion_artifact", diff_conf)] ∧
      (detect_ai_generated "image" freq_conf noise_conf gan_conf diff_conf).overall_confidence =
        freq_conf * (1/4) + noise_conf * (1/4) + gan_conf * (1/4) + diff_conf * (1/4) ∧
      ((evFreq ∈ (detect_ai_generated "image" freq_conf noise_conf gan_conf diff_conf).evidence)
          ↔ freq_conf > 1/2) ∧
      ((evNoise ∈ (detect_ai_generated "image" freq_conf noise_conf gan_conf diff_conf).evidence)
          ↔ noise_conf > 1/2) ∧
      ((evGan ∈ (detect_ai_generated "image" freq_conf noise_conf gan_conf diff_conf).evidence)
          ↔ gan_conf > 1/2) ∧
      ((evDiff ∈ (detect_ai_generated "image" freq_conf noise_conf gan_conf diff_conf).evidence)
          ↔ diff_conf > 1/2)) ∧
    ((detect_manipulation "image" ela_conf clone_conf face_conf splice_conf reenc_conf
          meta_conf).manipulation_signals =
        [("error_level_analysis", ela_conf), ("cloning_detection", clone_conf),
          ("face_swap_detection", face_conf), ("splicing_detection", splice_conf),
          ("re_encoding_analysis", reenc_conf), ("metadata_visual_match", meta_conf)] ∧
      (detect_manipulation "image" ela_conf clone_conf face_conf splice_conf reenc_conf
          meta_conf).overall_confidence =
        ela_conf * (1/5) + clone_conf * (3/20) + face_conf * (3/20) +
          splice_conf * (1/5) + reenc_conf * (3/20) + meta_conf * (3/20) ∧
      ((evEla ∈ (detect_manipulation "image" ela_conf clone_conf face_conf splice_conf
          reenc_conf meta_conf).evidence) ↔ ela_conf > 1/2) ∧
      ((evClone ∈ (detect_manipulation "image" ela_conf clone_conf face_conf splice_conf
          reenc_conf meta_conf).evidence) ↔ clone_conf > 1/2) ∧
      ((evFace ∈ (detect_manipulation "image" ela_conf clone_conf face_conf splice_conf
          reenc_conf meta_conf).evidence) ↔ face_conf > 1/2) ∧
      ((evSplice ∈ (detect_manipulation "image" ela_conf clone_conf face_conf splice_conf
          reenc_conf meta_conf).evidence) ↔ splice_conf > 1/2) ∧
      ((evReenc ∈ (detect_manipulation "image" ela_conf clone_conf face_conf splice_conf
          reenc_conf meta_conf).evidence) ↔ reenc_conf > 1/2) ∧
      ((evMeta ∈ (detect_manipulation "image" ela_conf clone_conf face_conf splice_conf
          reenc_conf meta_conf).evidence) ↔ meta_conf > 1/2)) := by
  constructor
  · simp only [detect_ai_generated, if_pos rfl]
    refine ⟨rfl, rfl, ?_, ?_, ?_, ?_⟩ <;>
      simp [List.mem_append, mem_ite_singleton, evFreq, evNoise, evGan, evDiff]
  · simp only [detect_manipulation, if_pos rfl]
    refine ⟨rfl, rfl, ?_, ?_, ?_, ?_, ?_, ?_⟩ <;>
      simp [List.mem_append, mem_ite_singleton, evEla, evClone, evFace, evSplice, evReenc,
        evMeta]

end ContentLedger
